import Mathlib

/-!
Verification of the dynamic batch-construction and bucketing subsystem of
`nemo/collections/common/data/lhotse/dataloader.py`: length measurement,
sampling constraints, and 1D/2D bucket assignment.

Lengths and durations are embedded as rationals (`ℚ`); Python's fallible
operations (attribute errors, index errors, `assert`, `raise`) are embedded
as `Except String`.
-/

namespace NemoLhotse

/-! ## Data model: examples -/

/-- A supervision segment of a `Cut`.  `tokens` is `some ids` when the
supervision carries a `tokens` attribute (i.e. it has been tokenized). -/
structure Supervision where
  tokens : Option (List Nat)
deriving DecidableEq

/-- An audio example (lhotse `Cut`).  `tokenized_prompted_transcript` and
`num_tokens` model dynamically attached attributes: they are `some _`
exactly when `hasattr(cut, ...)` holds in Python. -/
structure Cut where
  duration : ℚ
  supervisions : List Supervision := []
  tokenized_prompted_transcript : Option (List Nat) := none
  num_tokens : Option ℚ := none
deriving DecidableEq

/-- A text example (lhotse `TextExample`), exposing its token count. -/
structure TextExample where
  num_tokens : Nat
deriving DecidableEq

/-- A paired text example (lhotse `TextPairExample`), exposing its token
count. -/
structure TextPairExample where
  num_tokens : Nat
deriving DecidableEq

/-- The tagged union of example types reaching the constraints.  `other`
models a value of an unrelated Python type: it carries the type's name (for
error messages) and an optional `num_tokens` attribute (for `hasattr`
tests). -/
inductive ExampleT where
  | cut : Cut → ExampleT
  | text : TextExample → ExampleT
  | textPair : TextPairExample → ExampleT
  | other : String → Option ℚ → ExampleT
deriving DecidableEq

/-- Python `hasattr(example, "num_tokens")` together with the attribute's
value: `Cut` has it only when cached, text examples always have it. -/
def getNumTokens : ExampleT → Option ℚ
  | .cut c => c.num_tokens
  | .text t => some t.num_tokens
  | .textPair t => some t.num_tokens
  | .other _ nt => nt

/-- Python `isinstance(example, Cut)`. -/
def isCut : ExampleT → Bool
  | .cut _ => true
  | _ => false

/-- Python `type(example)` as a printable name, used in error messages. -/
def typeName : ExampleT → String
  | .cut _ => "Cut"
  | .text _ => "TextExample"
  | .textPair _ => "TextPairExample"
  | .other n _ => n

/-! ## Token measurement for cuts (`_measure_tokens`) -/

/-- Embedding of `_measure_tokens(cut)`: the length of the
`tokenized_prompted_transcript` when present, otherwise the summed token
count of tokenized supervisions; the `assert` on untokenized supervisions
becomes an error. -/
def measure_tokens (c : Cut) : Except String Nat :=
  match c.tokenized_prompted_transcript with
  | some toks => .ok toks.length
  | none =>
    let tokenLists := c.supervisions.filterMap (fun s => s.tokens)
    if tokenLists.isEmpty then
      .error "Cannot measure tokens-per-second with untokenized supervisions."
    else
      .ok (tokenLists.map List.length).sum

/-! ## Python tuple ordering and `bisect.bisect_right` -/

/-- Python's `<` on 2-tuples: lexicographic comparison. -/
def tupLt (x y : ℚ × ℚ) : Prop :=
  x.1 < y.1 ∨ (x.1 = y.1 ∧ x.2 < y.2)

instance (x y : ℚ × ℚ) : Decidable (tupLt x y) := by
  unfold tupLt
  exact inferInstance

/-- Python list indexing `a[i]` for boundary tables; the default is never
reached on the in-range accesses the program performs. -/
def binAt : List (ℚ × ℚ) → Nat → ℚ × ℚ
  | [], _ => (0, 0)
  | p :: _, 0 => p
  | _ :: ps, n + 1 => binAt ps n

/-- The loop body of CPython's `bisect.bisect_right`:
`while lo < hi: mid = (lo+hi)//2; if x < a[mid]: hi = mid else: lo = mid+1`.
The fuel argument only bounds the iteration count; `a.length + 1` steps
always suffice. -/
def bisectGo (a : List (ℚ × ℚ)) (x : ℚ × ℚ) : Nat → Nat → Nat → Nat
  | 0, lo, _ => lo
  | fuel + 1, lo, hi =>
    if lo < hi then
      let mid := (lo + hi) / 2
      if tupLt x (binAt a mid) then bisectGo a x fuel lo mid
      else bisectGo a x fuel (mid + 1) hi
    else lo

/-- `bisect.bisect_right(a, x)` over a table of 2-tuples. -/
def bisect_right (a : List (ℚ × ℚ)) (x : ℚ × ℚ) : Nat :=
  bisectGo a x (a.length + 1) 0 a.length

/-! ## 2D bucket selection (`FixedBucketBatchSizeConstraint2D.select_bucket`) -/

/-- The refinement loop of `FixedBucketBatchSizeConstraint2D.select_bucket`:
advance to the next bucket while one exists, it shares the current bucket's
first-dimension boundary, and the example's second dimension either falls
strictly between the current and next second-dimension boundaries or still
exceeds the next one.  Fuel bounds the iteration count; `a.length` steps
always suffice. -/
def refineGo (a : List (ℚ × ℚ)) (e1 : ℚ) : Nat → Nat → Nat
  | 0, idx => idx
  | fuel + 1, idx =>
    if idx + 1 < a.length then
      let cur := binAt a idx
      let nxt := binAt a (idx + 1)
      if nxt.1 = cur.1 ∧ (cur.2 < e1 ∧ e1 ≤ nxt.2 ∨ nxt.2 < e1) then
        refineGo a e1 fuel (idx + 1)
      else idx
    else idx

/-- The 2D path of `select_bucket`: a `bisect_right` candidate followed by
the refinement loop.  Reading `max_seq_len_buckets[bucket_idx]` with
`bucket_idx = len(max_seq_len_buckets)` raises `IndexError` in Python,
embedded as `none`. -/
def select_bucket_2d (a : List (ℚ × ℚ)) (x : ℚ × ℚ) : Option Nat :=
  let idx := bisect_right a x
  if idx < a.length then some (refineGo a x.2 a.length idx) else none

/-! ## Bucket boundary tables and 1D selection -/

/-- A bucket boundary table: a list of scalars (1D) or of pairs (2D),
mirroring `max_seq_len_buckets` holding floats or float tuples. -/
inductive BucketBins where
  | bins1d : List ℚ → BucketBins
  | bins2d : List (ℚ × ℚ) → BucketBins
deriving DecidableEq

/-- Embedding of the structural test
`isinstance(self.max_seq_len_buckets[0], Sequence) and len(...) == 2`:
on this table type the first entry is a pair exactly when the table is the
2D variant. -/
def bucketing_2d_enabled : BucketBins → Bool
  | .bins1d _ => false
  | .bins2d _ => true

/-- Modelled from the spec: the 1D `select_bucket` of the external sampling
library's fixed-bucket policy (the `super()` the 2D class delegates to),
which is not part of this repository.  Per the spec it is a binary search
returning the index with `boundaries[index-1] <= length < boundaries[index]`,
i.e. the count of leading boundaries not exceeding the length. -/
def select_bucket_1d (bounds : List ℚ) (l : ℚ) : Nat :=
  (bounds.takeWhile (fun b => decide (b ≤ l))).length

/-- Modelled from the spec: the plain 1D fixed-bucket policy's bucket
assignment, stated by the spec's own contract (the number of boundaries at
most the measured length), used as the comparison point for the
refinement-equivalence claim. -/
def plain1d_select_bucket (bounds : List ℚ) (l : ℚ) : Nat :=
  bounds.countP (fun b => decide (b ≤ l))

/-- Modelled from the spec: the plain 1D fixed-bucket policy's length
measurement, `length = duration in seconds` for an audio segment; any other
example type has no `duration` attribute. -/
def plain1d_measure_length : ExampleT → Except String ℚ
  | .cut c => .ok c.duration
  | _ => .error "AttributeError: duration"

/-- Modelled from the spec: the effective per-example batch budget
`batch_sizes[select_bucket(measure_length(example))]`, where a length beyond
the last boundary uses the last batch-size entry. -/
def batch_budget (bounds : List ℚ) (sizes : List Nat) (l : ℚ) : Nat :=
  sizes.getD (min (select_bucket_1d bounds l) (sizes.length - 1)) 0

/-! ## `FixedBucketBatchSizeConstraint2D` -/

/-- The fields of `FixedBucketBatchSizeConstraint2D` relevant to length
measurement and bucket selection (inherited from the external
`FixedBucketBatchSizeConstraint`). -/
structure FixedBucketBatchSizeConstraint2D where
  max_seq_len_buckets : BucketBins
  batch_sizes : List Nat
deriving DecidableEq

/-- A measured length: a scalar (1D bucketing) or a pair (2D bucketing),
mirroring `measure_length` returning a float or a float tuple. -/
inductive MeasuredLen where
  | one : ℚ → MeasuredLen
  | two : ℚ → ℚ → MeasuredLen
deriving DecidableEq

/-- Embedding of `FixedBucketBatchSizeConstraint2D.measure_length`:
`(duration, _measure_tokens(example))` when 2D bucketing is enabled,
otherwise `duration`.  Non-`Cut` examples have no `duration` attribute. -/
def FixedBucketBatchSizeConstraint2D.measure_length
    (c : FixedBucketBatchSizeConstraint2D) (ex : ExampleT) :
    Except String MeasuredLen :=
  if bucketing_2d_enabled c.max_seq_len_buckets then
    match ex with
    | .cut cu => (measure_tokens cu).map (fun t => .two cu.duration t)
    | _ => .error "AttributeError: duration"
  else
    match ex with
    | .cut cu => .ok (.one cu.duration)
    | _ => .error "AttributeError: duration"

/-- Embedding of `FixedBucketBatchSizeConstraint2D.select_bucket` applied to
a measured length (callers pass `buckets = self.max_seq_len_buckets`): the
1D case delegates to the external 1D policy; the 2D case runs
`bisect_right` plus the refinement loop.  Comparing a float with a tuple
raises `TypeError` in Python; indexing past the table raises
`IndexError`. -/
def FixedBucketBatchSizeConstraint2D.select_bucket
    (c : FixedBucketBatchSizeConstraint2D) (len : MeasuredLen) :
    Except String Nat :=
  match c.max_seq_len_buckets, len with
  | .bins1d bounds, .one l => .ok (select_bucket_1d bounds l)
  | .bins1d _, .two _ _ => .error "TypeError: tuple compared with float"
  | .bins2d table, .two l1 l2 =>
    match select_bucket_2d table (l1, l2) with
    | some i => .ok i
    | none => .error "IndexError: list index out of range"
  | .bins2d _, .one _ => .error "TypeError: float compared with tuple"

/-! ## `MultimodalSamplingConstraint` and its token-counting core -/

/-- The configuration fields of `MultimodalSamplingConstraint`. -/
structure MultimodalSamplingConstraint where
  token_equivalent_duration : ℚ
  batch_size : Option Nat := none
  batch_tokens : Option ℚ := none
  quadratic_factor : Option ℚ := none
deriving DecidableEq

/-- The running totals of the internal token-counting constraint: total
accumulated length and example count. -/
structure TokenConstraintState where
  current : ℚ
  num_examples : Nat
deriving DecidableEq

/-- Modelled from the spec: the effective length accumulated by the external
token-counting constraint's `add`, inflating the measured length by the
quadratic penalty `length^2 / quadratic_factor` when a factor is
configured. -/
def effective_length (qf : Option ℚ) (l : ℚ) : ℚ :=
  match qf with
  | none => l
  | some q => l + l ^ 2 / q

/-- Modelled from the spec: the external `TokenConstraint.add`, the
token-counting core that `MultimodalSamplingConstraint` delegates to.  It
reads the example's token count (its `num_tokens` attribute), adds the
effective length to the running total and increments the count; an example
without a token count is an unsupported type. -/
def TokenConstraint.add (qf : Option ℚ) (st : TokenConstraintState)
    (ex : ExampleT) : Except String TokenConstraintState :=
  match getNumTokens ex with
  | some n => .ok ⟨st.current + effective_length qf n, st.num_examples + 1⟩
  | none => .error ("Unsupported example type: " ++ typeName ex)

/-- Modelled from the spec: the external `TokenConstraint.exceeded`, true
iff the running total exceeds `batch_tokens` or the running count exceeds
`batch_size` (when the respective bound is configured). -/
def TokenConstraint.exceeded (c : MultimodalSamplingConstraint)
    (st : TokenConstraintState) : Bool :=
  (match c.batch_tokens with
   | some m => decide (m < st.current)
   | none => false) ||
  (match c.batch_size with
   | some n => decide (n < st.num_examples)
   | none => false)

/-- Embedding of `MultimodalSamplingConstraint.measure_length`: a `Cut`
yields `duration / token_equivalent_duration`, text examples yield their
token count, anything else raises an error naming the type. -/
def MultimodalSamplingConstraint.measure_length
    (c : MultimodalSamplingConstraint) : ExampleT → Except String ℚ
  | .cut cu => .ok (cu.duration / c.token_equivalent_duration)
  | .text t => .ok t.num_tokens
  | .textPair t => .ok t.num_tokens
  | .other n _ => .error ("Unsupported example type: " ++ n)

/-- Embedding of `MultimodalSamplingConstraint.add`: a `Cut` first gets its
measured token-equivalent length cached as its `num_tokens` attribute, then
the (possibly updated) example is delegated to the internal token-counting
constraint.  Returns the example as the delegate sees it together with the
new running totals. -/
def MultimodalSamplingConstraint.add (c : MultimodalSamplingConstraint)
    (st : TokenConstraintState) (ex : ExampleT) :
    Except String (ExampleT × TokenConstraintState) :=
  match ex with
  | .cut cu =>
    let nt := cu.duration / c.token_equivalent_duration
    let ex2 := ExampleT.cut { cu with num_tokens := some nt }
    (TokenConstraint.add c.quadratic_factor st ex2).map (fun st2 => (ex2, st2))
  | _ => (TokenConstraint.add c.quadratic_factor st ex).map (fun st2 => (ex, st2))

/-- Embedding of `MultimodalSamplingConstraint.exceeded`, delegating to the
internal token-counting constraint. -/
def MultimodalSamplingConstraint.exceeded (c : MultimodalSamplingConstraint)
    (st : TokenConstraintState) : Bool :=
  TokenConstraint.exceeded c st

/-- Embedding of `MultimodalSamplingConstraint.reset`, zeroing the internal
running totals. -/
def MultimodalSamplingConstraint.reset : TokenConstraintState := ⟨0, 0⟩

/-- Running a sequence of `add` calls from a given state, stopping at the
first error. -/
def MultimodalSamplingConstraint.run (c : MultimodalSamplingConstraint) :
    List ExampleT → TokenConstraintState → Except String TokenConstraintState
  | [], st => .ok st
  | ex :: rest, st =>
    match c.add st ex with
    | .ok (_, st2) => MultimodalSamplingConstraint.run c rest st2
    | .error e => .error e

/-- The raw measured length each `add` call contributes for a given example:
a `Cut` contributes its token-equivalent length (which `add` caches), any
other example its `num_tokens` token count. -/
def addMeasuredLen (c : MultimodalSamplingConstraint) (ex : ExampleT) :
    Except String ℚ :=
  match ex with
  | .cut cu => .ok (cu.duration / c.token_equivalent_duration)
  | e =>
    match getNumTokens e with
    | some n => .ok n
    | none => .error ("Unsupported example type: " ++ typeName e)

/-- The raw measured lengths of a sequence of examples. -/
def addMeasuredLens (c : MultimodalSamplingConstraint) (exs : List ExampleT) :
    Except String (List ℚ) :=
  exs.mapM (addMeasuredLen c)

/-! ## `MultimodalFixedBucketBatchSizeConstraint2D` -/

/-- The fields of `MultimodalFixedBucketBatchSizeConstraint2D` relevant to
length measurement. -/
structure MultimodalFixedBucketBatchSizeConstraint2D where
  max_seq_len_buckets : BucketBins
  batch_sizes : List Nat
  token_equivalent_duration : Option ℚ := none
deriving DecidableEq

/-- Embedding of `MultimodalFixedBucketBatchSizeConstraint2D.measure_length`:
the leading `assert` rejects 2D tables; an example carrying a `num_tokens`
attribute returns it directly; an un-cached `Cut` needs
`token_equivalent_duration` to convert its duration; anything else is an
unsupported type. -/
def MultimodalFixedBucketBatchSizeConstraint2D.measure_length
    (c : MultimodalFixedBucketBatchSizeConstraint2D) (ex : ExampleT) :
    Except String ℚ :=
  if bucketing_2d_enabled c.max_seq_len_buckets then
    .error "2D bucketing for multimodal sampling is not yet supported."
  else
    match getNumTokens ex with
    | some n => .ok n
    | none =>
      match ex with
      | .cut cu =>
        match c.token_equivalent_duration with
        | some ted => .ok (cu.duration / ted)
        | none =>
          .error "Cannot use MultimodalFixedBucketBatchSizeConstraint with speech data when token_equivalent_duration was not specified."
      | e => .error ("Unsupported example type: " ++ typeName e)

/-! ## Sortedness of boundary tables -/

/-- A 2D boundary table sorted in Python's tuple (lexicographic) order, the
precondition of `bisect.bisect_right`. -/
def SortedLex (a : List (ℚ × ℚ)) : Prop :=
  List.Pairwise (fun p q => ¬ tupLt q p) a

instance (a : List (ℚ × ℚ)) : Decidable (SortedLex a) := by
  unfold SortedLex
  exact inferInstance

/-- A 1D boundary table sorted non-decreasingly. -/
def Sorted1D (bounds : List ℚ) : Prop :=
  List.Pairwise (· ≤ ·) bounds

instance (bounds : List ℚ) : Decidable (Sorted1D bounds) := by
  unfold Sorted1D
  exact inferInstance

/-! ## Helper lemmas -/

theorem binAt_eq_get : ∀ (a : List (ℚ × ℚ)) (i : Nat) (h : i < a.length),
    binAt a i = a.get ⟨i, h⟩
  | _ :: _, 0, _ => rfl
  | _ :: ps, n + 1, h => binAt_eq_get ps n (Nat.lt_of_succ_lt_succ h)

theorem tupLt_irrefl (x : ℚ × ℚ) : ¬ tupLt x x := by
  rintro (h | ⟨-, h⟩) <;> exact lt_irrefl _ h

theorem tupLt_of_lt_of_nlt {x b c : ℚ × ℚ} (h1 : tupLt x b) (h2 : ¬ tupLt c b) :
    tupLt x c := by
  rw [tupLt, not_or, not_and] at h2
  obtain ⟨h21, h22⟩ := h2
  rcases h1 with h1 | ⟨h1e, h1l⟩
  · exact Or.inl (lt_of_lt_of_le h1 (not_lt.1 h21))
  · rcases lt_or_eq_of_le (not_lt.1 h21) with hbc | hbc
    · exact Or.inl (h1e ▸ hbc)
    · exact Or.inr ⟨h1e.trans hbc, lt_of_lt_of_le h1l (not_lt.1 (h22 hbc.symm))⟩

theorem not_tupLt_of {x b c : ℚ × ℚ} (h1 : ¬ tupLt x b) (h2 : ¬ tupLt b c) :
    ¬ tupLt x c :=
  fun h3 => h1 (tupLt_of_lt_of_nlt h3 h2)

theorem sorted_nlt {a : List (ℚ × ℚ)} (hs : SortedLex a) {i j : Nat}
    (hij : i < j) (hj : j < a.length) :
    ¬ tupLt (binAt a j) (binAt a i) := by
  have hi : i < a.length := lt_trans hij hj
  rw [binAt_eq_get a i hi, binAt_eq_get a j hj]
  exact List.pairwise_iff_get.1 hs ⟨i, hi⟩ ⟨j, hj⟩ hij

theorem sorted_fst_le {a : List (ℚ × ℚ)} (hs : SortedLex a) {i j : Nat}
    (hij : i ≤ j) (hj : j < a.length) :
    (binAt a i).1 ≤ (binAt a j).1 := by
  rcases lt_or_eq_of_le hij with h | h
  · have := sorted_nlt hs h hj
    rw [tupLt, not_or] at this
    exact not_lt.1 this.1
  · rw [h]

theorem sorted_snd_le {a : List (ℚ × ℚ)} (hs : SortedLex a) {i j : Nat}
    (hij : i ≤ j) (hj : j < a.length) (hfst : (binAt a j).1 = (binAt a i).1) :
    (binAt a i).2 ≤ (binAt a j).2 := by
  rcases lt_or_eq_of_le hij with h | h
  · have := sorted_nlt hs h hj
    rw [tupLt, not_or, not_and] at this
    exact not_lt.1 (this.2 hfst)
  · rw [h]

theorem select_bucket_1d_eq_plain (l : ℚ) :
    ∀ bounds : List ℚ, Sorted1D bounds →
      select_bucket_1d bounds l = plain1d_select_bucket bounds l := by
  intro bounds
  induction bounds with
  | nil => intro _; rfl
  | cons b rest ih =>
    intro h
    obtain ⟨hb, hrest⟩ := List.pairwise_cons.1 h
    have hrw := ih hrest
    simp only [select_bucket_1d, plain1d_select_bucket] at hrw ⊢
    by_cases hbl : b ≤ l
    · simp [List.takeWhile_cons, List.countP_cons, hbl, hrw]
    · have h0 : List.countP (fun b => decide (b ≤ l)) rest = 0 :=
        List.countP_eq_zero.2 (fun x hx => by
          simp [not_le.2 (lt_of_lt_of_le (not_le.1 hbl) (hb x hx))])
      simp [List.takeWhile_cons, List.countP_cons, hbl, h0]

/-! ## Claim theorems -/

/-- C2: for the 2D boundary table `[(1,1),(1,2),(2,2),(2,4)]` and an example
of length `(1.5, 3)`, `FixedBucketBatchSizeConstraint2D.select_bucket`
returns index 3, not the naive bisect result of 2. -/
theorem claim2_refinement_example :
    bisect_right [((1:ℚ), (1:ℚ)), (1, 2), (2, 2), (2, 4)] (3/2, 3) = 2
    ∧ (FixedBucketBatchSizeConstraint2D.mk
        (.bins2d [((1:ℚ), (1:ℚ)), (1, 2), (2, 2), (2, 4)]) [1, 1, 1, 1]).select_bucket
        (.two (3/2) 3) = .ok 3 := by
  norm_num [FixedBucketBatchSizeConstraint2D.select_bucket, select_bucket_2d,
    bisect_right, bisectGo, refineGo, binAt, tupLt]

/-- C3: with 1D boundaries `[10, 20, 30]` and batch sizes `[8, 4, 2]`, an
example of duration 15 selects bucket 1 with budget 4, duration 35 selects
bucket 3 (beyond the last boundary) with budget 2 (the last entry), and
duration 5 selects bucket 0 with budget 8. -/
theorem claim3_end_to_end :
    (FixedBucketBatchSizeConstraint2D.mk (.bins1d [10, 20, 30]) [8, 4, 2]).select_bucket
        (.one 15) = .ok 1
    ∧ batch_budget [10, 20, 30] [8, 4, 2] 15 = 4
    ∧ (FixedBucketBatchSizeConstraint2D.mk (.bins1d [10, 20, 30]) [8, 4, 2]).select_bucket
        (.one 35) = .ok 3
    ∧ batch_budget [10, 20, 30] [8, 4, 2] 35 = 2
    ∧ (FixedBucketBatchSizeConstraint2D.mk (.bins1d [10, 20, 30]) [8, 4, 2]).select_bucket
        (.one 5) = .ok 0
    ∧ batch_budget [10, 20, 30] [8, 4, 2] 5 = 8 := by
  norm_num [FixedBucketBatchSizeConstraint2D.select_bucket, select_bucket_1d,
    batch_budget, List.takeWhile]

/-- C4: a `FixedBucketBatchSizeConstraint2D` whose boundary table is 1D has
`bucketing_2d_enabled` false (detected structurally), its `measure_length`
returns the example's duration, and its `select_bucket` delegates to the
plain 1D fixed-bucket policy — identical behavior to the 1D policy on the
same (sorted) boundary table. -/
theorem claim4_degrades_to_1d (bounds : List ℚ) (sizes : List Nat)
    (hs : Sorted1D bounds) :
    bucketing_2d_enabled
        (FixedBucketBatchSizeConstraint2D.mk (.bins1d bounds) sizes).max_seq_len_buckets
      = false
    ∧ (∀ ex : ExampleT,
        (FixedBucketBatchSizeConstraint2D.mk (.bins1d bounds) sizes).measure_length ex
          = (plain1d_measure_length ex).map MeasuredLen.one)
    ∧ (∀ l : ℚ,
        (FixedBucketBatchSizeConstraint2D.mk (.bins1d bounds) sizes).select_bucket (.one l)
          = .ok (plain1d_select_bucket bounds l)) := by
  refine ⟨rfl, ?_, ?_⟩
  · intro ex
    cases ex <;> rfl
  · intro l
    show Except.ok (select_bucket_1d bounds l) = _
    rw [select_bucket_1d_eq_plain l bounds hs]

/-- Witness for C4 at the concrete sorted boundary table `[10, 20, 30]`. -/
theorem claim4_witness :
    bucketing_2d_enabled
        (FixedBucketBatchSizeConstraint2D.mk (.bins1d [10, 20, 30]) [8, 4, 2]).max_seq_len_buckets
      = false
    ∧ (∀ ex : ExampleT,
        (FixedBucketBatchSizeConstraint2D.mk (.bins1d [10, 20, 30]) [8, 4, 2]).measure_length ex
          = (plain1d_measure_length ex).map MeasuredLen.one)
    ∧ (∀ l : ℚ,
        (FixedBucketBatchSizeConstraint2D.mk (.bins1d [10, 20, 30]) [8, 4, 2]).select_bucket (.one l)
          = .ok (plain1d_select_bucket [10, 20, 30] l)) :=
  claim4_degrades_to_1d [10, 20, 30] [8, 4, 2]
    (by norm_num [Sorted1D, List.pairwise_cons])

/-- C5: `MultimodalSamplingConstraint.measure_length` returns the token
count of a text example exactly, `duration / token_equivalent_duration` for
an audio example, and an error naming the type for anything else. -/
theorem claim5_multimodal_measure (c : MultimodalSamplingConstraint)
    (_hted : c.token_equivalent_duration ≠ 0) :
    (∀ t : TextExample, c.measure_length (.text t) = .ok t.num_tokens)
    ∧ (∀ t : TextPairExample, c.measure_length (.textPair t) = .ok t.num_tokens)
    ∧ (∀ cu : Cut,
        c.measure_length (.cut cu) = .ok (cu.duration / c.token_equivalent_duration))
    ∧ (∀ (n : String) (nt : Option ℚ),
        c.measure_length (.other n nt) = .error ("Unsupported example type: " ++ n)) :=
  ⟨fun _ => rfl, fun _ => rfl, fun _ => rfl, fun _ _ => rfl⟩

/-- Witness for C5 at a concrete constraint and text example. -/
theorem claim5_witness :
    MultimodalSamplingConstraint.measure_length ⟨2, none, none, none⟩ (.text ⟨7⟩)
      = .ok ((7 : ℕ) : ℚ) :=
  (claim5_multimodal_measure ⟨2, none, none, none⟩ (by norm_num)).1 ⟨7⟩

/-- C8: with a 2D boundary table, the multimodal fixed-bucket constraint's
`measure_length` fails fast with the "not yet supported" assertion error on
every example. -/
theorem claim8_multimodal_2d_unsupported
    (c : MultimodalFixedBucketBatchSizeConstraint2D)
    (h : bucketing_2d_enabled c.max_seq_len_buckets = true) (ex : ExampleT) :
    c.measure_length ex
      = .error "2D bucketing for multimodal sampling is not yet supported." := by
  simp [MultimodalFixedBucketBatchSizeConstraint2D.measure_length, h]

/-- Witness for C8 at a concrete 2D-configured constraint and example. -/
theorem claim8_witness :
    MultimodalFixedBucketBatchSizeConstraint2D.measure_length
        ⟨.bins2d [((1:ℚ), (1:ℚ))], [1], none⟩ (.text ⟨1⟩)
      = .error "2D bucketing for multimodal sampling is not yet supported." :=
  claim8_multimodal_2d_unsupported ⟨.bins2d [((1:ℚ), (1:ℚ))], [1], none⟩ rfl (.text ⟨1⟩)

/-- C10: with a 1D table, `MultimodalFixedBucketBatchSizeConstraint2D.measure_length`
returns the `num_tokens` attribute whenever it exists — for every example
type, including a `Cut` carrying a cached value, and for every
`token_equivalent_duration` configuration including `none`, so both the
duration conversion and the configuration check are skipped — and the
unsupported-type error is reached exactly for examples that are neither
`Cut`s nor carry `num_tokens`. -/
theorem claim10_num_tokens_short_circuit (bins : List ℚ) (sizes : List Nat)
    (ted : Option ℚ) :
    (∀ (ex : ExampleT) (n : ℚ), getNumTokens ex = some n →
        MultimodalFixedBucketBatchSizeConstraint2D.measure_length
          ⟨.bins1d bins, sizes, ted⟩ ex = .ok n)
    ∧ (∀ ex : ExampleT,
        MultimodalFixedBucketBatchSizeConstraint2D.measure_length
            ⟨.bins1d bins, sizes, ted⟩ ex
          = .error ("Unsupported example type: " ++ typeName ex)
        ↔ isCut ex = false ∧ getNumTokens ex = none) := by
  constructor
  · intro ex n h
    simp [MultimodalFixedBucketBatchSizeConstraint2D.measure_length,
      bucketing_2d_enabled, h]
  · intro ex
    cases ex with
    | cut cu =>
      rcases cu with ⟨dur, sup, tpt, nt⟩
      cases nt with
      | some v =>
        simp [MultimodalFixedBucketBatchSizeConstraint2D.measure_length,
          bucketing_2d_enabled, getNumTokens, isCut]
      | none =>
        cases ted with
        | some t =>
          simp [MultimodalFixedBucketBatchSizeConstraint2D.measure_length,
            bucketing_2d_enabled, getNumTokens, isCut]
        | none =>
          simp only [MultimodalFixedBucketBatchSizeConstraint2D.measure_length,
            bucketing_2d_enabled, getNumTokens, isCut, Bool.false_eq_true,
            if_false, typeName]
          constructor
          · intro h
            exact absurd (Except.error.inj h) (by decide)
          · rintro ⟨h, -⟩
            exact absurd h (by decide)
    | text t =>
      simp [MultimodalFixedBucketBatchSizeConstraint2D.measure_length,
        bucketing_2d_enabled, getNumTokens, isCut]
    | textPair t =>
      simp [MultimodalFixedBucketBatchSizeConstraint2D.measure_length,
        bucketing_2d_enabled, getNumTokens, isCut]
    | other n nt =>
      cases nt with
      | some v =>
        simp [MultimodalFixedBucketBatchSizeConstraint2D.measure_length,
          bucketing_2d_enabled, getNumTokens, isCut]
      | none =>
        simp [MultimodalFixedBucketBatchSizeConstraint2D.measure_length,
          bucketing_2d_enabled, getNumTokens, isCut, typeName]

/-- Witness for C10: a `Cut` with a cached `num_tokens` of 7 and no
configured `token_equivalent_duration` still measures as 7. -/
theorem claim10_witness :
    MultimodalFixedBucketBatchSizeConstraint2D.measure_length
        ⟨.bins1d [], [], none⟩ (.cut ⟨2, [], none, some 7⟩) = .ok 7 :=
  (claim10_num_tokens_short_circuit [] [] none).1 (.cut ⟨2, [], none, some 7⟩) 7 rfl

/-- A successful `add` contributes exactly its measured length (inflated by
the quadratic penalty) to the running total and one to the count. -/
theorem add_ok_spec (c : MultimodalSamplingConstraint) (st0 : TokenConstraintState)
    (ex ex2 : ExampleT) (st1 : TokenConstraintState)
    (h : c.add st0 ex = .ok (ex2, st1)) :
    ∃ l, addMeasuredLen c ex = .ok l
      ∧ st1.current = st0.current + effective_length c.quadratic_factor l
      ∧ st1.num_examples = st0.num_examples + 1 := by
  cases ex with
  | cut cu =>
    refine ⟨cu.duration / c.token_equivalent_duration, rfl, ?_⟩
    simp only [MultimodalSamplingConstraint.add, TokenConstraint.add, getNumTokens,
      Except.map, Except.ok.injEq, Prod.mk.injEq] at h
    rw [← h.2]
    exact ⟨rfl, rfl⟩
  | text t =>
    refine ⟨t.num_tokens, rfl, ?_⟩
    simp only [MultimodalSamplingConstraint.add, TokenConstraint.add, getNumTokens,
      Except.map, Except.ok.injEq, Prod.mk.injEq] at h
    rw [← h.2]
    exact ⟨rfl, rfl⟩
  | textPair t =>
    refine ⟨t.num_tokens, rfl, ?_⟩
    simp only [MultimodalSamplingConstraint.add, TokenConstraint.add, getNumTokens,
      Except.map, Except.ok.injEq, Prod.mk.injEq] at h
    rw [← h.2]
    exact ⟨rfl, rfl⟩
  | other n nt =>
    cases nt with
    | some v =>
      refine ⟨v, rfl, ?_⟩
      simp only [MultimodalSamplingConstraint.add, TokenConstraint.add, getNumTokens,
        Except.map, Except.ok.injEq, Prod.mk.injEq] at h
      rw [← h.2]
      exact ⟨rfl, rfl⟩
    | none =>
      simp [MultimodalSamplingConstraint.add, TokenConstraint.add, getNumTokens,
        Except.map] at h

/-- Running a sequence of successful `add` calls adds one to the count per
example and, with no quadratic penalty, the sum of the measured lengths to
the running total. -/
theorem run_spec (c : MultimodalSamplingConstraint) :
    ∀ (exs : List ExampleT) (st0 st : TokenConstraintState),
      c.run exs st0 = .ok st →
      st.num_examples = st0.num_examples + exs.length
      ∧ ∀ ls : List ℚ, c.quadratic_factor = none → addMeasuredLens c exs = .ok ls →
          st.current = st0.current + ls.sum := by
  intro exs
  induction exs with
  | nil =>
    intro st0 st h
    simp only [MultimodalSamplingConstraint.run, Except.ok.injEq] at h
    subst h
    refine ⟨by simp, ?_⟩
    intro ls _ hls
    simp only [addMeasuredLens, List.mapM_nil, pure, Except.pure, Except.ok.injEq] at hls
    subst hls
    simp
  | cons ex rest ih =>
    intro st0 st h
    simp only [MultimodalSamplingConstraint.run] at h
    cases hadd : c.add st0 ex with
    | error e => rw [hadd] at h; exact absurd h (by simp)
    | ok p =>
      obtain ⟨ex2, st1⟩ := p
      rw [hadd] at h
      obtain ⟨hn, hc⟩ := ih st1 st h
      obtain ⟨l, hml, hc1, hn1⟩ := add_ok_spec c st0 ex ex2 st1 hadd
      constructor
      · rw [hn, hn1, List.length_cons]
        omega
      · intro ls hqf hls
        simp only [addMeasuredLens, List.mapM_cons, hml] at hls
        cases hrest : addMeasuredLens c rest with
        | error e =>
          simp only [addMeasuredLens] at hrest
          rw [hrest] at hls
          exact absurd hls (by simp [Bind.bind, Except.bind])
        | ok ls' =>
          simp only [addMeasuredLens] at hrest
          rw [hrest] at hls
          simp only [Bind.bind, Except.bind, pure, Except.pure, Except.ok.injEq] at hls
          subst hls
          rw [hc ls' hqf hrest, hc1, List.sum_cons]
          simp only [effective_length, hqf]
          ring

/-- C6 is refuted as literally stated: with a configured quadratic factor,
`exceeded` can become true although the cumulative measured length stays
under the configured maximum.  Here the single measured length is 5 with
maximum 10 and no example-count bound, yet `add` accumulates
`5 + 5^2 / 1 = 30` and `exceeded` is already true. -/
theorem claim6_counterexample :
    MultimodalSamplingConstraint.run ⟨1, none, some 10, some 1⟩
        [.text ⟨5⟩] MultimodalSamplingConstraint.reset = .ok ⟨30, 1⟩
    ∧ addMeasuredLen ⟨1, none, some 10, some 1⟩ (.text ⟨5⟩) = .ok 5
    ∧ ((5 : ℚ) ≤ 10)
    ∧ MultimodalSamplingConstraint.exceeded ⟨1, none, some 10, some 1⟩ ⟨30, 1⟩ = true := by
  norm_num [MultimodalSamplingConstraint.run, MultimodalSamplingConstraint.add,
    MultimodalSamplingConstraint.reset, MultimodalSamplingConstraint.exceeded,
    TokenConstraint.add, TokenConstraint.exceeded, getNumTokens, effective_length,
    addMeasuredLen, Except.map]

/-- C6 (amended): `exceeded` is false immediately after `reset` (for
nonnegative configured maxima); after any successful sequence of `add`
calls it is true exactly when the accumulated total crosses `batch_tokens`
or the example count crosses `batch_size`; the count is the number of added
examples, and with no quadratic factor the accumulated total is exactly the
cumulative measured length, as the claim states. -/
theorem claim6_exceeded_thresholds (c : MultimodalSamplingConstraint)
    (exs : List ExampleT) (st : TokenConstraintState)
    (hm : ∀ m, c.batch_tokens = some m → 0 ≤ m)
    (hr : c.run exs MultimodalSamplingConstraint.reset = .ok st) :
    c.exceeded MultimodalSamplingConstraint.reset = false
    ∧ (c.exceeded st = true ↔
        (∃ m, c.batch_tokens = some m ∧ m < st.current)
        ∨ (∃ n, c.batch_size = some n ∧ n < st.num_examples))
    ∧ st.num_examples = exs.length
    ∧ (∀ ls : List ℚ, c.quadratic_factor = none → addMeasuredLens c exs = .ok ls →
        st.current = ls.sum) := by
  obtain ⟨hn, hc⟩ := run_spec c exs MultimodalSamplingConstraint.reset st hr
  refine ⟨?_, ?_, by simpa [MultimodalSamplingConstraint.reset] using hn,
    fun ls hqf hls => by simpa [MultimodalSamplingConstraint.reset] using hc ls hqf hls⟩
  · cases hbt : c.batch_tokens with
    | none =>
      cases hbs : c.batch_size <;>
        simp [MultimodalSamplingConstraint.exceeded, TokenConstraint.exceeded,
          MultimodalSamplingConstraint.reset, hbt, hbs]
    | some m =>
      cases hbs : c.batch_size <;>
        simp [MultimodalSamplingConstraint.exceeded, TokenConstraint.exceeded,
          MultimodalSamplingConstraint.reset, hbt, hbs, not_lt.2 (hm m hbt)]
  · cases hbt : c.batch_tokens <;> cases hbs : c.batch_size <;>
      simp [MultimodalSamplingConstraint.exceeded, TokenConstraint.exceeded,
        hbt, hbs]

/-- Witness for C6 at a concrete constraint and two text examples. -/
theorem claim6_witness :
    MultimodalSamplingConstraint.exceeded ⟨1, some 2, some 10, none⟩
        MultimodalSamplingConstraint.reset = false
    ∧ (MultimodalSamplingConstraint.exceeded ⟨1, some 2, some 10, none⟩ ⟨7, 2⟩ = true ↔
        (∃ m, (MultimodalSamplingConstraint.mk 1 (some 2) (some 10) none).batch_tokens = some m
            ∧ m < (TokenConstraintState.mk 7 2).current)
        ∨ (∃ n, (MultimodalSamplingConstraint.mk 1 (some 2) (some 10) none).batch_size = some n
            ∧ n < (TokenConstraintState.mk 7 2).num_examples))
    ∧ (TokenConstraintState.mk 7 2).num_examples = [ExampleT.text ⟨3⟩, ExampleT.text ⟨4⟩].length
    ∧ (∀ ls : List ℚ,
        (MultimodalSamplingConstraint.mk 1 (some 2) (some 10) none).quadratic_factor = none →
        addMeasuredLens ⟨1, some 2, some 10, none⟩ [ExampleT.text ⟨3⟩, ExampleT.text ⟨4⟩] = .ok ls →
        (TokenConstraintState.mk 7 2).current = ls.sum) :=
  claim6_exceeded_thresholds ⟨1, some 2, some 10, none⟩
    [ExampleT.text ⟨3⟩, ExampleT.text ⟨4⟩] ⟨7, 2⟩
    (by intro m hmm; cases hmm; norm_num)
    (by norm_num [MultimodalSamplingConstraint.run, MultimodalSamplingConstraint.add,
      MultimodalSamplingConstraint.reset, TokenConstraint.add, getNumTokens,
      effective_length, Except.map])

/-- C7: `add` on an audio example first caches the measured token-equivalent
length as the example's `num_tokens` attribute and delegates the updated
example; every other field of the example is unchanged, non-audio examples
are delegated unmodified, and in both cases only the running totals change,
by exactly the effective measured length and a count of one. -/
theorem claim7_add_caches (c : MultimodalSamplingConstraint)
    (st : TokenConstraintState) :
    (∀ cu : Cut, ∃ cu2 : Cut,
        c.add st (.cut cu)
          = .ok (.cut cu2,
              ⟨st.current + effective_length c.quadratic_factor
                  (cu.duration / c.token_equivalent_duration),
                st.num_examples + 1⟩)
        ∧ cu2.num_tokens = some (cu.duration / c.token_equivalent_duration)
        ∧ cu2.duration = cu.duration
        ∧ cu2.supervisions = cu.supervisions
        ∧ cu2.tokenized_prompted_transcript = cu.tokenized_prompted_transcript)
    ∧ (∀ (ex ex2 : ExampleT) (st2 : TokenConstraintState), isCut ex = false →
        c.add st ex = .ok (ex2, st2) →
        ex2 = ex
        ∧ st2.current = st.current
            + effective_length c.quadratic_factor ((getNumTokens ex).getD 0)
        ∧ st2.num_examples = st.num_examples + 1) := by
  constructor
  · intro cu
    exact ⟨{ cu with num_tokens := some (cu.duration / c.token_equivalent_duration) },
      rfl, rfl, rfl, rfl, rfl⟩
  · intro ex ex2 st2 hic h
    cases ex with
    | cut cu => simp [isCut] at hic
    | text t =>
      simp only [MultimodalSamplingConstraint.add, TokenConstraint.add, getNumTokens,
        Except.map, Except.ok.injEq, Prod.mk.injEq] at h
      obtain ⟨h1, h2⟩ := h
      subst h1
      rw [← h2]
      exact ⟨rfl, rfl, rfl⟩
    | textPair t =>
      simp only [MultimodalSamplingConstraint.add, TokenConstraint.add, getNumTokens,
        Except.map, Except.ok.injEq, Prod.mk.injEq] at h
      obtain ⟨h1, h2⟩ := h
      subst h1
      rw [← h2]
      exact ⟨rfl, rfl, rfl⟩
    | other n nt =>
      cases nt with
      | some v =>
        simp only [MultimodalSamplingConstraint.add, TokenConstraint.add, getNumTokens,
          Except.map, Except.ok.injEq, Prod.mk.injEq] at h
        obtain ⟨h1, h2⟩ := h
        subst h1
        rw [← h2]
        exact ⟨rfl, rfl, rfl⟩
      | none =>
        simp [MultimodalSamplingConstraint.add, TokenConstraint.add, getNumTokens,
          Except.map] at h

/-- Witness for C7 at a concrete non-audio example. -/
theorem claim7_witness :
    (ExampleT.text ⟨4⟩ = ExampleT.text ⟨4⟩)
    ∧ (TokenConstraintState.mk ((0 : ℚ) + effective_length none ((4 : ℕ) : ℚ)) (0 + 1)).current
        = (TokenConstraintState.mk 0 0).current
            + effective_length none ((getNumTokens (ExampleT.text ⟨4⟩)).getD 0)
    ∧ (TokenConstraintState.mk ((0 : ℚ) + effective_length none ((4 : ℕ) : ℚ)) (0 + 1)).num_examples
        = (TokenConstraintState.mk 0 0).num_examples + 1 :=
  (claim7_add_caches ⟨1, none, none, none⟩ ⟨0, 0⟩).2 (.text ⟨4⟩) (.text ⟨4⟩)
    ⟨(0 : ℚ) + effective_length none ((4 : ℕ) : ℚ), 0 + 1⟩ rfl rfl

/-- When the example compares greater than every table entry, the binary
search always takes the upper branch and returns `hi`. -/
theorem bisectGo_all_nlt (a : List (ℚ × ℚ)) (x : ℚ × ℚ)
    (h : ∀ i, i < a.length → ¬ tupLt x (binAt a i)) :
    ∀ fuel lo hi, lo ≤ hi → hi ≤ a.length → hi - lo < fuel →
      bisectGo a x fuel lo hi = hi := by
  intro fuel
  induction fuel with
  | zero => intro lo hi h1 h2 h3; omega
  | succ fuel ih =>
    intro lo hi h1 h2 h3
    by_cases hlh : lo < hi
    · have hmid : (lo + hi) / 2 < hi := by omega
      show (if lo < hi then _ else lo) = hi
      rw [if_pos hlh]
      simp only
      rw [if_neg (h _ (lt_of_lt_of_le hmid h2))]
      exact ih ((lo + hi) / 2 + 1) hi (by omega) h2 (by omega)
    · show (if lo < hi then _ else lo) = hi
      rw [if_neg hlh]
      omega

/-- C9: in the 2D path, an example comparing greater than every boundary
tuple makes `bisect_right` return the table length, and `select_bucket`
then fails with an out-of-range access instead of returning an index — the
2D path has no open-ended bucket past the last boundary. -/
theorem claim9_no_open_ended_2d (a : List (ℚ × ℚ)) (sizes : List Nat) (x : ℚ × ℚ)
    (h : ∀ b ∈ a, ¬ tupLt x b) :
    bisect_right a x = a.length
    ∧ select_bucket_2d a x = none
    ∧ (FixedBucketBatchSizeConstraint2D.mk (.bins2d a) sizes).select_bucket (.two x.1 x.2)
        = .error "IndexError: list index out of range" := by
  have hb : bisect_right a x = a.length := by
    apply bisectGo_all_nlt a x _ _ 0 a.length (Nat.zero_le _) le_rfl (by omega)
    intro i hi
    rw [binAt_eq_get a i hi]
    exact h _ (a.get_mem _ _)
  have hsel : select_bucket_2d a x = none := by
    simp [select_bucket_2d, hb]
  refine ⟨hb, hsel, ?_⟩
  simp [FixedBucketBatchSizeConstraint2D.select_bucket, hsel]

/-- One-step unfolding of the binary-search loop. -/
theorem bisectGo_succ (a : List (ℚ × ℚ)) (x : ℚ × ℚ) (fuel lo hi : Nat) :
    bisectGo a x (fuel + 1) lo hi =
      if lo < hi then
        if tupLt x (binAt a ((lo + hi) / 2)) then bisectGo a x fuel lo ((lo + hi) / 2)
        else bisectGo a x fuel ((lo + hi) / 2 + 1) hi
      else lo := rfl

/-- One-step unfolding of the refinement loop. -/
theorem refineGo_succ (a : List (ℚ × ℚ)) (e1 : ℚ) (fuel idx : Nat) :
    refineGo a e1 (fuel + 1) idx =
      if idx + 1 < a.length then
        if (binAt a (idx + 1)).1 = (binAt a idx).1
            ∧ ((binAt a idx).2 < e1 ∧ e1 ≤ (binAt a (idx + 1)).2
               ∨ (binAt a (idx + 1)).2 < e1) then
          refineGo a e1 fuel (idx + 1)
        else idx
      else idx := rfl

/-- Correctness of the binary search on a sorted table: the result splits
the table into a lower part not above the example and an upper part
strictly above it. -/
theorem bisectGo_spec (a : List (ℚ × ℚ)) (x : ℚ × ℚ) (hs : SortedLex a) :
    ∀ fuel lo hi, lo ≤ hi → hi ≤ a.length → hi - lo < fuel →
      (∀ i, i < lo → ¬ tupLt x (binAt a i)) →
      (∀ i, hi ≤ i → i < a.length → tupLt x (binAt a i)) →
      lo ≤ bisectGo a x fuel lo hi
      ∧ bisectGo a x fuel lo hi ≤ hi
      ∧ (∀ i, i < bisectGo a x fuel lo hi → ¬ tupLt x (binAt a i))
      ∧ (∀ i, bisectGo a x fuel lo hi ≤ i → i < a.length → tupLt x (binAt a i)) := by
  intro fuel
  induction fuel with
  | zero => intro lo hi h1 h2 h3 _ _; omega
  | succ fuel ih =>
    intro lo hi h1 h2 h3 hlow hhigh
    by_cases hlh : lo < hi
    · have hmlt : (lo + hi) / 2 < hi := by omega
      have hmge : lo ≤ (lo + hi) / 2 := by omega
      have hmlen : (lo + hi) / 2 < a.length := lt_of_lt_of_le hmlt h2
      by_cases hx : tupLt x (binAt a ((lo + hi) / 2))
      · have heq : bisectGo a x (fuel + 1) lo hi = bisectGo a x fuel lo ((lo + hi) / 2) := by
          rw [bisectGo_succ, if_pos hlh, if_pos hx]
        rw [heq]
        have hres := ih lo ((lo + hi) / 2) hmge (le_of_lt hmlen) (by omega) hlow ?_
        · exact ⟨hres.1, le_trans hres.2.1 (le_of_lt hmlt), hres.2.2.1, hres.2.2.2⟩
        · intro i hi1 hi2
          rcases eq_or_lt_of_le hi1 with he | hlt2
          · rw [← he]; exact hx
          · exact tupLt_of_lt_of_nlt hx (sorted_nlt hs hlt2 hi2)
      · have heq : bisectGo a x (fuel + 1) lo hi = bisectGo a x fuel ((lo + hi) / 2 + 1) hi := by
          rw [bisectGo_succ, if_pos hlh, if_neg hx]
        rw [heq]
        have hres := ih ((lo + hi) / 2 + 1) hi (by omega) h2 (by omega) ?_ hhigh
        · exact ⟨le_trans (by omega) hres.1, hres.2.1, hres.2.2.1, hres.2.2.2⟩
        · intro i hi1
          have hile : i ≤ (lo + hi) / 2 := by omega
          rcases eq_or_lt_of_le hile with he | hlt2
          · rw [he]; exact hx
          · exact not_tupLt_of hx (sorted_nlt hs hlt2 hmlen)
    · have heq : bisectGo a x (fuel + 1) lo hi = lo := by
        rw [bisectGo_succ, if_neg hlh]
      rw [heq]
      have hlohi : lo = hi := le_antisymm h1 (not_lt.1 hlh)
      exact ⟨le_rfl, h1, fun i hi' => hlow i hi',
        fun i hi1 hi2 => hhigh i (hlohi ▸ hi1) hi2⟩

/-- Correctness of `bisect_right` on a sorted table. -/
theorem bisect_right_spec (a : List (ℚ × ℚ)) (x : ℚ × ℚ) (hs : SortedLex a) :
    bisect_right a x ≤ a.length
    ∧ (∀ i, i < bisect_right a x → ¬ tupLt x (binAt a i))
    ∧ (∀ i, bisect_right a x ≤ i → i < a.length → tupLt x (binAt a i)) := by
  have hres := bisectGo_spec a x hs (a.length + 1) 0 a.length (Nat.zero_le _) le_rfl
    (by omega) (fun i hi => absurd hi (Nat.not_lt_zero i))
    (fun i hi1 hi2 => absurd (lt_of_le_of_lt hi1 hi2) (lt_irrefl _))
  exact ⟨hres.2.1, hres.2.2.1, hres.2.2.2⟩

/-- Correctness of the refinement loop on a sorted table: starting inside
the table it stays inside the group sharing the start's first-dimension
boundary, strictly skips only buckets whose second-dimension boundary is
below the example, and stops either at a bucket whose second dimension
accommodates the example or at the end of the group. -/
theorem refineGo_spec (a : List (ℚ × ℚ)) (e1 : ℚ) (hs : SortedLex a) :
    ∀ fuel idx, idx < a.length → a.length - idx ≤ fuel →
      idx ≤ refineGo a e1 fuel idx
      ∧ refineGo a e1 fuel idx < a.length
      ∧ (binAt a (refineGo a e1 fuel idx)).1 = (binAt a idx).1
      ∧ (∀ k, idx ≤ k → k < refineGo a e1 fuel idx → (binAt a k).2 < e1)
      ∧ (e1 ≤ (binAt a (refineGo a e1 fuel idx)).2
         ∨ ((binAt a (refineGo a e1 fuel idx)).2 < e1
            ∧ (refineGo a e1 fuel idx + 1 < a.length →
                (binAt a (refineGo a e1 fuel idx + 1)).1 ≠ (binAt a idx).1))) := by
  intro fuel
  induction fuel with
  | zero => intro idx h1 h2; omega
  | succ fuel ih =>
    intro idx hidx hfuel
    by_cases hnext : idx + 1 < a.length
    · by_cases hC : (binAt a (idx + 1)).1 = (binAt a idx).1
          ∧ ((binAt a idx).2 < e1 ∧ e1 ≤ (binAt a (idx + 1)).2
             ∨ (binAt a (idx + 1)).2 < e1)
      · have heq : refineGo a e1 (fuel + 1) idx = refineGo a e1 fuel (idx + 1) := by
          rw [refineGo_succ, if_pos hnext, if_pos hC]
        rw [heq]
        obtain ⟨r1, r2, r3, r4, r5⟩ := ih (idx + 1) hnext (by omega)
        have hcur : (binAt a idx).2 < e1 := by
          rcases hC.2 with ⟨h', -⟩ | h'
          · exact h'
          · exact lt_of_le_of_lt (sorted_snd_le hs (Nat.le_succ idx) hnext hC.1) h'
        refine ⟨by omega, r2, r3.trans hC.1, ?_, ?_⟩
        · intro k hk1 hk2
          rcases eq_or_lt_of_le hk1 with he | hlt
          · rw [← he]; exact hcur
          · exact r4 k hlt hk2
        · rcases r5 with h5 | ⟨h5a, h5b⟩
          · exact Or.inl h5
          · exact Or.inr ⟨h5a, fun hlen heq2 => h5b hlen (heq2.trans hC.1.symm)⟩
      · have heq : refineGo a e1 (fuel + 1) idx = idx := by
          rw [refineGo_succ, if_pos hnext, if_neg hC]
        rw [heq]
        refine ⟨le_rfl, hidx, rfl,
          fun k hk1 hk2 => absurd (lt_of_le_of_lt hk1 hk2) (lt_irrefl _), ?_⟩
        rcases le_or_lt e1 (binAt a idx).2 with hfit | hnofit
        · exact Or.inl hfit
        · refine Or.inr ⟨hnofit, fun _ heqf => hC ⟨heqf, ?_⟩⟩
          rcases le_or_lt e1 (binAt a (idx + 1)).2 with h' | h'
          · exact Or.inl ⟨hnofit, h'⟩
          · exact Or.inr h'
    · have heq : refineGo a e1 (fuel + 1) idx = idx := by
        rw [refineGo_succ, if_neg hnext]
      rw [heq]
      refine ⟨le_rfl, hidx, rfl,
        fun k hk1 hk2 => absurd (lt_of_le_of_lt hk1 hk2) (lt_irrefl _), ?_⟩
      rcases le_or_lt e1 (binAt a idx).2 with hfit | hnofit
      · exact Or.inl hfit
      · exact Or.inr ⟨hnofit, fun hlen _ => absurd hlen hnext⟩

/-- C1 is refuted as literally stated: for the sorted 2D table
`[(1,1),(1,2)]` and the example `(1,1)`, the bisect candidate is bucket 1
and `select_bucket` returns 1, yet bucket 0 shares the candidate's
first-dimension boundary and can contain the example in both dimensions
(`1 ≤ 1` and `1 ≤ 1`), so the returned index is not the smallest such
bucket.  An example whose length exactly equals a boundary pair overflows
past that bucket. -/
theorem claim1_counterexample :
    SortedLex [((1:ℚ), (1:ℚ)), (1, 2)]
    ∧ bisect_right [((1:ℚ), (1:ℚ)), (1, 2)] (1, 1) = 1
    ∧ (FixedBucketBatchSizeConstraint2D.mk (.bins2d [((1:ℚ), (1:ℚ)), (1, 2)]) [1, 1]).select_bucket
        (.two 1 1) = .ok 1
    ∧ (binAt [((1:ℚ), (1:ℚ)), (1, 2)] 0).1 = (binAt [((1:ℚ), (1:ℚ)), (1, 2)] 1).1
    ∧ (1 : ℚ) ≤ (binAt [((1:ℚ), (1:ℚ)), (1, 2)] 0).1
    ∧ (1 : ℚ) ≤ (binAt [((1:ℚ), (1:ℚ)), (1, 2)] 0).2
    ∧ (0 : ℕ) < 1 := by
  refine ⟨?_, ?_⟩
  · norm_num [SortedLex, List.pairwise_cons, tupLt]
  · norm_num [FixedBucketBatchSizeConstraint2D.select_bucket, select_bucket_2d,
      bisect_right, bisectGo, refineGo, binAt, tupLt]

/-- C1 (amended): on a sorted 2D table, whenever the bisect candidate
exists and some bucket sharing the candidate's first-dimension boundary has
a boundary pair at least the example in both dimensions and different from
it (an example exactly equal to a boundary pair overflows past that bucket,
per the `bisect_right` convention), `select_bucket` returns the smallest
such bucket — smallest in position and in both boundary dimensions — among
buckets sharing that first-dimension ceiling. -/
theorem claim1_smallest_fitting_bucket (a : List (ℚ × ℚ)) (sizes : List Nat)
    (x : ℚ × ℚ) (hs : SortedLex a)
    (hin : bisect_right a x < a.length)
    (j : ℕ) (hj : j < a.length)
    (hjfst : (binAt a j).1 = (binAt a (bisect_right a x)).1)
    (_hj1 : x.1 ≤ (binAt a j).1) (hj2 : x.2 ≤ (binAt a j).2)
    (hjne : binAt a j ≠ x) :
    ∃ r, (FixedBucketBatchSizeConstraint2D.mk (.bins2d a) sizes).select_bucket
          (.two x.1 x.2) = .ok r
      ∧ r < a.length
      ∧ (binAt a r).1 = (binAt a (bisect_right a x)).1
      ∧ x.1 ≤ (binAt a r).1
      ∧ x.2 ≤ (binAt a r).2
      ∧ binAt a r ≠ x
      ∧ (∀ k, k < a.length → (binAt a k).1 = (binAt a (bisect_right a x)).1 →
          x.1 ≤ (binAt a k).1 → x.2 ≤ (binAt a k).2 → binAt a k ≠ x →
          r ≤ k ∧ (binAt a r).1 ≤ (binAt a k).1 ∧ (binAt a r).2 ≤ (binAt a k).2) := by
  obtain ⟨hle, hlow, hhigh⟩ := bisect_right_spec a x hs
  have hx_lt_i0 : tupLt x (binAt a (bisect_right a x)) := hhigh _ le_rfl hin
  have hx1_le : x.1 ≤ (binAt a (bisect_right a x)).1 := by
    rcases hx_lt_i0 with h | ⟨h, -⟩
    · exact le_of_lt h
    · exact le_of_eq h
  have hPge : ∀ k, k < a.length → (binAt a k).1 = (binAt a (bisect_right a x)).1 →
      x.2 ≤ (binAt a k).2 → binAt a k ≠ x → bisect_right a x ≤ k := by
    intro k hk hkfst hk2 hkne
    by_contra hlt
    push_neg at hlt
    have hnlt := hlow k hlt
    rw [tupLt, not_or, not_and] at hnlt
    obtain ⟨hn1, hn2⟩ := hnlt
    have hx1k : x.1 ≤ (binAt a k).1 := hkfst ▸ hx1_le
    have hx1e : x.1 = (binAt a k).1 := le_antisymm hx1k (not_lt.1 hn1)
    have h2e : (binAt a k).2 = x.2 := le_antisymm (not_lt.1 (hn2 hx1e)) hk2
    exact hkne (Prod.ext hx1e.symm h2e)
  have hji0 : bisect_right a x ≤ j := hPge j hj hjfst hj2 hjne
  have hgroup : ∀ k, bisect_right a x ≤ k → k ≤ j →
      (binAt a k).1 = (binAt a (bisect_right a x)).1 := by
    intro k hk1 hk2
    have h1 : (binAt a (bisect_right a x)).1 ≤ (binAt a k).1 :=
      sorted_fst_le hs hk1 (lt_of_le_of_lt hk2 hj)
    have h2 : (binAt a k).1 ≤ (binAt a j).1 := sorted_fst_le hs hk2 hj
    rw [hjfst] at h2
    exact le_antisymm h2 h1
  obtain ⟨r1, r2, r3, r4, r5⟩ :=
    refineGo_spec a x.2 hs a.length (bisect_right a x) hin (by omega)
  have hrfit : x.2 ≤ (binAt a (refineGo a x.2 a.length (bisect_right a x))).2 := by
    rcases r5 with h5 | ⟨h5a, h5b⟩
    · exact h5
    · rcases lt_or_le j (refineGo a x.2 a.length (bisect_right a x)) with hjr | hjr
      · exact absurd (r4 j hji0 hjr) (not_lt.2 hj2)
      · rcases eq_or_lt_of_le hjr with he | hlt
        · rw [← he] at hj2
          exact absurd h5a (not_lt.2 hj2)
        · exact absurd (hgroup _ (by omega) (Nat.succ_le_of_lt hlt))
            (h5b (lt_of_le_of_lt (Nat.succ_le_of_lt hlt) hj))
  have hrne : binAt a (refineGo a x.2 a.length (bisect_right a x)) ≠ x := by
    intro he
    have hcontra := hhigh _ r1 r2
    rw [he] at hcontra
    exact tupLt_irrefl x hcontra
  have hrx1 : x.1 ≤ (binAt a (refineGo a x.2 a.length (bisect_right a x))).1 := by
    rw [r3]
    exact hx1_le
  have h2d : select_bucket_2d a x = some (refineGo a x.2 a.length (bisect_right a x)) := by
    show (if bisect_right a x < a.length
        then some (refineGo a x.2 a.length (bisect_right a x)) else none) = _
    rw [if_pos hin]
  have h2d' : select_bucket_2d a (x.1, x.2)
      = some (refineGo a x.2 a.length (bisect_right a x)) := h2d
  have hselect : (FixedBucketBatchSizeConstraint2D.mk (.bins2d a) sizes).select_bucket
      (.two x.1 x.2) = .ok (refineGo a x.2 a.length (bisect_right a x)) := by
    simp [FixedBucketBatchSizeConstraint2D.select_bucket, h2d']
  refine ⟨refineGo a x.2 a.length (bisect_right a x), hselect, r2, r3, hrx1, hrfit, hrne, ?_⟩
  intro k hk hkfst hk1 hk2 hkne
  have hk_ge : bisect_right a x ≤ k := hPge k hk hkfst hk2 hkne
  have hrk : refineGo a x.2 a.length (bisect_right a x) ≤ k := by
    by_contra hlt
    push_neg at hlt
    exact absurd (r4 k hk_ge hlt) (not_lt.2 hk2)
  refine ⟨hrk, ?_, sorted_snd_le hs hrk hk (hkfst.trans r3.symm)⟩
  rw [r3, hkfst]

/-- Witness for the amended C1 at the table `[(1,1),(1,2),(2,2),(2,4)]`
and example `(3/2, 3)`, where bucket 3 is the containing bucket. -/
theorem claim1_witness :
    ∃ r, (FixedBucketBatchSizeConstraint2D.mk
          (.bins2d [((1:ℚ), (1:ℚ)), (1, 2), (2, 2), (2, 4)]) [1, 1, 1, 1]).select_bucket
          (.two ((3/2 : ℚ), (3:ℚ)).1 ((3/2 : ℚ), (3:ℚ)).2) = .ok r
      ∧ r < [((1:ℚ), (1:ℚ)), (1, 2), (2, 2), (2, 4)].length
      ∧ (binAt [((1:ℚ), (1:ℚ)), (1, 2), (2, 2), (2, 4)] r).1
          = (binAt [((1:ℚ), (1:ℚ)), (1, 2), (2, 2), (2, 4)]
              (bisect_right [((1:ℚ), (1:ℚ)), (1, 2), (2, 2), (2, 4)] ((3/2 : ℚ), (3:ℚ)))).1
      ∧ ((3/2 : ℚ), (3:ℚ)).1 ≤ (binAt [((1:ℚ), (1:ℚ)), (1, 2), (2, 2), (2, 4)] r).1
      ∧ ((3/2 : ℚ), (3:ℚ)).2 ≤ (binAt [((1:ℚ), (1:ℚ)), (1, 2), (2, 2), (2, 4)] r).2
      ∧ binAt [((1:ℚ), (1:ℚ)), (1, 2), (2, 2), (2, 4)] r ≠ ((3/2 : ℚ), (3:ℚ))
      ∧ (∀ k, k < [((1:ℚ), (1:ℚ)), (1, 2), (2, 2), (2, 4)].length →
          (binAt [((1:ℚ), (1:ℚ)), (1, 2), (2, 2), (2, 4)] k).1
            = (binAt [((1:ℚ), (1:ℚ)), (1, 2), (2, 2), (2, 4)]
                (bisect_right [((1:ℚ), (1:ℚ)), (1, 2), (2, 2), (2, 4)] ((3/2 : ℚ), (3:ℚ)))).1 →
          ((3/2 : ℚ), (3:ℚ)).1 ≤ (binAt [((1:ℚ), (1:ℚ)), (1, 2), (2, 2), (2, 4)] k).1 →
          ((3/2 : ℚ), (3:ℚ)).2 ≤ (binAt [((1:ℚ), (1:ℚ)), (1, 2), (2, 2), (2, 4)] k).2 →
          binAt [((1:ℚ), (1:ℚ)), (1, 2), (2, 2), (2, 4)] k ≠ ((3/2 : ℚ), (3:ℚ)) →
          r ≤ k
          ∧ (binAt [((1:ℚ), (1:ℚ)), (1, 2), (2, 2), (2, 4)] r).1
              ≤ (binAt [((1:ℚ), (1:ℚ)), (1, 2), (2, 2), (2, 4)] k).1
          ∧ (binAt [((1:ℚ), (1:ℚ)), (1, 2), (2, 2), (2, 4)] r).2
              ≤ (binAt [((1:ℚ), (1:ℚ)), (1, 2), (2, 2), (2, 4)] k).2) :=
  claim1_smallest_fitting_bucket [((1:ℚ), (1:ℚ)), (1, 2), (2, 2), (2, 4)] [1, 1, 1, 1]
    ((3/2 : ℚ), (3:ℚ))
    (by norm_num [SortedLex, List.pairwise_cons, tupLt])
    (by norm_num [bisect_right, bisectGo, binAt, tupLt])
    3 (by norm_num)
    (by norm_num [bisect_right, bisectGo, binAt, tupLt])
    (by norm_num [binAt])
    (by norm_num [binAt])
    (by norm_num [binAt, Prod.ext_iff])

/-- Witness for C9 at a concrete table and an example beyond it. -/
theorem claim9_witness :
    bisect_right [((1:ℚ), (1:ℚ)), (2, 2)] (3, 3) = [((1:ℚ), (1:ℚ)), (2, 2)].length
    ∧ select_bucket_2d [((1:ℚ), (1:ℚ)), (2, 2)] (3, 3) = none
    ∧ (FixedBucketBatchSizeConstraint2D.mk (.bins2d [((1:ℚ), (1:ℚ)), (2, 2)]) [1, 2]).select_bucket
        (.two ((3:ℚ), (3:ℚ)).1 ((3:ℚ), (3:ℚ)).2)
        = .error "IndexError: list index out of range" :=
  claim9_no_open_ended_2d [((1:ℚ), (1:ℚ)), (2, 2)] [1, 2] (3, 3)
    (by
      intro b hb
      fin_cases hb <;> norm_num [tupLt])

end NemoLhotse
